import Mathlib

/-!
Shallow embedding of `src/main.rs` (a minimal Redux-style store in Rust).

Modelling conventions:
* `Vec<i32>` becomes `List Int`.
* `HashMap<i32, T>` becomes an association list `List (Int × T)` with
  unique-key-preserving operations (`lookupA`, `insertA`, `eraseA`); the
  map built by the program always has unique keys, so the association
  list is extensionally the same finite map as the `HashMap`.
* A Rust function that can panic (`.expect(...)`) becomes an
  `Option`-valued Lean function; `none` is the panic.
* `Store.dispatch` mutates `self.state` only after the whole reducer fold
  succeeds, and then calls every observer; the embedding returns the
  (possibly failing) list of values passed to the observers together
  with the store after the call.
-/

section CollectionDefs

variable {T : Type}

/-- Rust trait `Identifiable`: an entity exposes a stable integer id. -/
class Identifiable (T : Type) where
  get_id : T → Int

/-- Lookup in the association-list model of `HashMap<i32, T>`:
`entities.get(&i)` returns the value bound to the first entry with key `i`. -/
def lookupA : List (Int × T) → Int → Option T
  | [], _ => none
  | (k, v) :: rest, i => if k = i then some v else lookupA rest i

/-- Model of `HashMap::insert`: replaces the value at the key in place when
the key is present, otherwise adds a new binding. -/
def insertA : List (Int × T) → Int → T → List (Int × T)
  | [], k, v => [(k, v)]
  | (k', v') :: rest, k, v =>
    if k' = k then (k, v) :: rest else (k', v') :: insertA rest k v

/-- Model of `HashMap::remove`: drops every binding with key `k` (the maps
built by the program have unique keys, so at most one entry is dropped). -/
def eraseA : List (Int × T) → Int → List (Int × T)
  | [], _ => []
  | (k', v') :: rest, k =>
    if k' = k then eraseA rest k else (k', v') :: eraseA rest k

/-- Keys of the association-list model, in entry order. -/
def keysA (l : List (Int × T)) : List Int := l.map Prod.fst

/-- Model of `Vec::remove` at `position(|&e| e == id)`: removes the first
occurrence of `i`, leaving the list unchanged when `i` is absent (the code
only reaches `Vec::remove` when the position exists). -/
def eraseFirst : List Int → Int → List Int
  | [], _ => []
  | x :: rest, i => if x = i then rest else x :: eraseFirst rest i

/-- Rust struct `Collection<T>`: `ids: Vec<i32>` and `entities: HashMap<i32, T>`. -/
structure Collection (T : Type) where
  ids : List Int
  entities : List (Int × T)
deriving DecidableEq

/-- `Collection::new()`: empty ids, empty entity map. -/
def Collection.new : Collection T := ⟨[], []⟩

/-- `Collection::add`: clones, pushes `entity.get_id()` onto `ids` and
inserts the entity into `entities`. No presence check, no failure path. -/
def Collection.add [Identifiable T] (c : Collection T) (entity : T) : Collection T :=
  ⟨c.ids ++ [Identifiable.get_id entity],
   insertA c.entities (Identifiable.get_id entity) entity⟩

/-- `Collection::update`: inserts the entity into a clone of `entities` and
keeps `ids` as is. No presence check, no failure path. -/
def Collection.update [Identifiable T] (c : Collection T) (entity : T) : Collection T :=
  ⟨c.ids, insertA c.entities (Identifiable.get_id entity) entity⟩

/-- `Collection::remove`: finds the position of `i` in `ids`
(`.expect("Entity should exist!")`, i.e. panics when absent, modelled as
`none`), removes that element of `ids` and removes the key from `entities`. -/
def Collection.remove (c : Collection T) (i : Int) : Option (Collection T) :=
  if i ∈ c.ids then some ⟨eraseFirst c.ids i, eraseA c.entities i⟩ else none

end CollectionDefs

section StoreDefs

variable {T S A Out : Type}

/-- Rust enum `EntityAction<T>`. -/
inductive EntityAction (T : Type) where
  | AddEntity (entity : T)
  | RemoveEntity (i : Int)
  | ReplaceEntity (entity : T)

/-- Rust struct `ObserverSelector<State, T>` with `T = bool` as in `Store`;
the observer is a callback on the selected `Bool`, modelled as producing
one output value per invocation. -/
structure ObserverSelector (S Out : Type) where
  selector : S → Bool
  observer : Bool → Out

/-- Rust struct `Store<T, A>`: current state, reducer chain, observer list.
Reducers are `Option`-valued because a reducer body may panic. -/
structure Store (S A Out : Type) where
  state : S
  reducers : List (S → A → Option S)
  observers : List (ObserverSelector S Out)

/-- `Store::new(state)`: no reducers, no observers. -/
def Store.new (s : S) : Store S A Out := ⟨s, [], []⟩

/-- `Store::register_reducer`: pushes the reducer onto the end of the chain. -/
def Store.register_reducer (store : Store S A Out) (r : S → A → Option S) :
    Store S A Out :=
  { store with reducers := store.reducers ++ [r] }

/-- The fold inside `Store::dispatch`:
`self.reducers.iter().fold(self.state.clone(), |prev, r| r(prev, &action))`,
with a panic in any reducer aborting the whole fold. -/
def reducerFold (rs : List (S → A → Option S)) (s : S) (a : A) : Option S :=
  match rs with
  | [] => some s
  | r :: rest =>
    match r s a with
    | none => none
    | some t => reducerFold rest t a

/-- `Store::dispatch`: folds the action through the reducer chain; on success
assigns the result to `state` and invokes every observer with its selector
applied to the new state; on a reducer panic the assignment never happens and
no observer runs. The first component is the list of values handed to the
observers (`none` when the dispatch panicked), the second is the store after
the call. -/
def Store.dispatch (store : Store S A Out) (a : A) :
    Option (List Out) × Store S A Out :=
  match reducerFold store.reducers store.state a with
  | none => (none, store)
  | some t =>
    (some (store.observers.map (fun os => os.observer (os.selector t))),
     { store with state := t })

/-- `Store::get_state`: read-only access to the current state. -/
def Store.get_state (store : Store S A Out) : S := store.state

/-- `Store::select`: applies a selector to the current state without
registering it. -/
def Store.select (store : Store S A Out) (sel : S → T) : T := sel store.state

/-- `Store::observe`: pushes a selector/observer pair onto the registry;
nothing is invoked at registration time. -/
def Store.observe (store : Store S A Out) (sel : S → Bool) (obs : Bool → Out) :
    Store S A Out :=
  { store with observers := store.observers ++ [⟨sel, obs⟩] }

/-- `entity_reducer`: interprets an `EntityAction` on a `Collection`;
`RemoveEntity` inherits the panic of `Collection::remove`. -/
def entity_reducer [Identifiable T] (entity_state : Collection T) :
    EntityAction T → Option (Collection T)
  | .AddEntity entity => some (entity_state.add entity)
  | .ReplaceEntity entity => some (entity_state.update entity)
  | .RemoveEntity i => entity_state.remove i

end StoreDefs

section TodoDefs

/-- Rust struct `Todo`. -/
structure Todo where
  id : Int
  task : String
  done : Bool
deriving DecidableEq

/-- `Todo::new(id, task)`: starts not done. -/
def Todo.new (i : Int) (task : String) : Todo := ⟨i, task, false⟩

instance : Identifiable Todo := ⟨Todo.id⟩

/-- Rust enum `TodoAction`. -/
inductive TodoAction where
  | Entity (a : EntityAction Todo)
  | MarkDone (i : Int) (d : Bool)
  | ChangeText (i : Int) (text : String)

/-- Rust struct `RootState`. -/
structure RootState where
  todos : Collection Todo
deriving DecidableEq

/-- `RootState::new()`: empty todo collection. -/
def RootState.new : RootState := ⟨Collection.new⟩

/-- `todo_reducer`: delegates entity actions to `entity_reducer`;
`MarkDone`/`ChangeText` mutate the entity in place via
`entities.get_mut(id).expect(...)` (panic, i.e. `none`, when missing). -/
def todo_reducer (todo_state : RootState) : TodoAction → Option RootState
  | .Entity x =>
    (entity_reducer todo_state.todos x).map (fun c => { todo_state with todos := c })
  | .MarkDone i d =>
    match lookupA todo_state.todos.entities i with
    | none => none
    | some t =>
      some { todo_state with
             todos := { todo_state.todos with
                        entities := insertA todo_state.todos.entities i { t with done := d } } }
  | .ChangeText i text =>
    match lookupA todo_state.todos.entities i with
    | none => none
    | some t =>
      some { todo_state with
             todos := { todo_state.todos with
                        entities := insertA todo_state.todos.entities i { t with task := text } } }

end TodoDefs

section OpsDefs

variable {T : Type}

/-- A single direct call on `Collection`: `add`, `update` or `remove`,
as quantified over by the order/map-consistency claim. -/
inductive Op (T : Type) where
  | addE (entity : T)
  | updateE (entity : T)
  | removeE (i : Int)

/-- Applies one `Op` exactly as the source methods behave: `add` and
`update` are total, `remove` can fail. -/
def applyOp [Identifiable T] (c : Collection T) : Op T → Option (Collection T)
  | .addE entity => some (c.add entity)
  | .updateE entity => some (c.update entity)
  | .removeE i => c.remove i

/-- Runs a sequence of `Op`s from a starting collection, stopping at the
first failing call. -/
def runOpsFrom [Identifiable T] (c : Collection T) : List (Op T) → Option (Collection T)
  | [] => some c
  | op :: rest =>
    match applyOp c op with
    | none => none
    | some c' => runOpsFrom c' rest

/-- Runs a sequence of `Op`s from the empty collection. -/
def runOps [Identifiable T] (ops : List (Op T)) : Option (Collection T) :=
  runOpsFrom Collection.new ops

/-- The spec's collection invariant: no duplicate entries in `order`
(`ids`), and `order` as a set equals the key set of `byId` (`entities`). -/
def wf (c : Collection T) : Prop :=
  c.ids.Nodup ∧ (∀ i ∈ c.ids, i ∈ keysA c.entities) ∧ (∀ i ∈ keysA c.entities, i ∈ c.ids)

instance (c : Collection T) : Decidable (wf c) := by
  unfold wf; infer_instance

/-- Applies one `Op` under the strict preconditions of the spec: `add`
requires the id to be fresh, `update` and `remove` require it present. -/
def applyOpStrict [Identifiable T] (c : Collection T) : Op T → Option (Collection T)
  | .addE entity =>
    if Identifiable.get_id entity ∈ c.ids then none else some (c.add entity)
  | .updateE entity =>
    if Identifiable.get_id entity ∈ c.ids then some (c.update entity) else none
  | .removeE i => c.remove i

/-- Runs a sequence of strict `Op`s from a starting collection. -/
def runOpsStrictFrom [Identifiable T] (c : Collection T) :
    List (Op T) → Option (Collection T)
  | [] => some c
  | op :: rest =>
    match applyOpStrict c op with
    | none => none
    | some c' => runOpsStrictFrom c' rest

/-- Runs a sequence of strict `Op`s from the empty collection. -/
def runOpsStrict [Identifiable T] (ops : List (Op T)) : Option (Collection T) :=
  runOpsStrictFrom Collection.new ops

end OpsDefs

section MapLemmas

variable {T : Type}

lemma lookupA_insertA_self (l : List (Int × T)) (k : Int) (v : T) :
    lookupA (insertA l k v) k = some v := by
  induction l with
  | nil => simp [insertA, lookupA]
  | cons p rest ih =>
    obtain ⟨k', v'⟩ := p
    by_cases h : k' = k
    · simp [insertA, h, lookupA]
    · simp [insertA, h, lookupA, ih]

lemma lookupA_insertA_ne (l : List (Int × T)) (k j : Int) (v : T) (h : j ≠ k) :
    lookupA (insertA l k v) j = lookupA l j := by
  induction l with
  | nil => simp [insertA, lookupA, Ne.symm h]
  | cons p rest ih =>
    obtain ⟨k', v'⟩ := p
    by_cases hk : k' = k
    · subst hk
      simp [insertA, lookupA, Ne.symm h]
    · simp [insertA, hk, lookupA, ih]

lemma keysA_nil : keysA ([] : List (Int × T)) = [] := rfl

lemma keysA_cons (p : Int × T) (rest : List (Int × T)) :
    keysA (p :: rest) = p.1 :: keysA rest := rfl

lemma mem_keysA_insertA (l : List (Int × T)) (k j : Int) (v : T) :
    j ∈ keysA (insertA l k v) ↔ j = k ∨ j ∈ keysA l := by
  induction l with
  | nil => simp [insertA, keysA_cons, keysA_nil]
  | cons p rest ih =>
    obtain ⟨k', v'⟩ := p
    by_cases hk : k' = k
    · subst hk
      have h1 : insertA ((k', v') :: rest) k' v = (k', v) :: rest := by
        simp [insertA]
      rw [h1, keysA_cons, keysA_cons]
      simp only [List.mem_cons]
      tauto
    · have h1 : insertA ((k', v') :: rest) k v = (k', v') :: insertA rest k v := by
        simp [insertA, hk]
      rw [h1, keysA_cons, keysA_cons]
      simp only [List.mem_cons, ih]
      tauto

lemma mem_keysA_eraseA (l : List (Int × T)) (k j : Int) :
    j ∈ keysA (eraseA l k) ↔ j ∈ keysA l ∧ j ≠ k := by
  induction l with
  | nil => simp [eraseA, keysA_nil]
  | cons p rest ih =>
    obtain ⟨k', v'⟩ := p
    by_cases hk : k' = k
    · subst hk
      have h1 : eraseA ((k', v') :: rest) k' = eraseA rest k' := by
        simp [eraseA]
      rw [h1, ih, keysA_cons]
      simp only [List.mem_cons]
      tauto
    · have h1 : eraseA ((k', v') :: rest) k = (k', v') :: eraseA rest k := by
        simp [eraseA, hk]
      rw [h1, keysA_cons, keysA_cons]
      simp only [List.mem_cons, ih]
      constructor
      · rintro (h | ⟨h1, h2⟩)
        · subst h
          exact ⟨Or.inl rfl, hk⟩
        · exact ⟨Or.inr h1, h2⟩
      · rintro ⟨h1 | h1, h2⟩
        · exact Or.inl h1
        · exact Or.inr ⟨h1, h2⟩

lemma lookupA_eraseA_ne (l : List (Int × T)) (k j : Int) (h : j ≠ k) :
    lookupA (eraseA l k) j = lookupA l j := by
  induction l with
  | nil => simp [eraseA]
  | cons p rest ih =>
    obtain ⟨k', v'⟩ := p
    by_cases hk : k' = k
    · subst hk
      simp [eraseA, lookupA, Ne.symm h, ih]
    · simp [eraseA, hk, lookupA, ih]

lemma lookupA_eraseA_self (l : List (Int × T)) (k : Int) :
    lookupA (eraseA l k) k = none := by
  induction l with
  | nil => simp [eraseA, lookupA]
  | cons p rest ih =>
    obtain ⟨k', v'⟩ := p
    by_cases hk : k' = k
    · simp [eraseA, hk, ih]
    · simp [eraseA, hk, lookupA, ih]

lemma eraseA_insertA_of_not_mem (l : List (Int × T)) (k : Int) (v : T)
    (h : k ∉ keysA l) : eraseA (insertA l k v) k = l := by
  induction l with
  | nil => simp [insertA, eraseA]
  | cons p rest ih =>
    obtain ⟨k', v'⟩ := p
    simp [keysA] at h
    have hk : k' ≠ k := fun he => h.1 he.symm
    simp [insertA, hk, eraseA, ih (by simp [keysA, h.2])]

lemma mem_of_mem_eraseFirst (l : List Int) (i j : Int) (h : j ∈ eraseFirst l i) :
    j ∈ l := by
  induction l with
  | nil => simp [eraseFirst] at h
  | cons x rest ih =>
    by_cases hx : x = i
    · simp [eraseFirst, hx] at h
      simp [h]
    · simp [eraseFirst, hx] at h
      rcases h with h | h
      · simp [h]
      · simp [ih h]

lemma mem_eraseFirst_of_ne (l : List Int) (i j : Int) (hne : j ≠ i) :
    j ∈ eraseFirst l i ↔ j ∈ l := by
  induction l with
  | nil => simp [eraseFirst]
  | cons x rest ih =>
    by_cases hx : x = i
    · subst hx
      simp [eraseFirst, hne, ih]
    · simp [eraseFirst, hx, ih]

lemma nodup_eraseFirst (l : List Int) (i : Int) (h : l.Nodup) :
    (eraseFirst l i).Nodup := by
  induction l with
  | nil => simp [eraseFirst]
  | cons x rest ih =>
    simp at h
    by_cases hx : x = i
    · simpa [eraseFirst, hx] using h.2
    · simp [eraseFirst, hx]
      exact ⟨fun hm => h.1 (mem_of_mem_eraseFirst rest i x hm), ih h.2⟩

lemma not_mem_eraseFirst_self (l : List Int) (i : Int) (h : l.Nodup) :
    i ∉ eraseFirst l i := by
  induction l with
  | nil => simp [eraseFirst]
  | cons x rest ih =>
    simp at h
    by_cases hx : x = i
    · subst hx
      simpa [eraseFirst] using h.1
    · simp [eraseFirst, hx, Ne.symm hx]
      exact ih h.2

lemma eraseFirst_append_singleton (l : List Int) (i : Int) (h : i ∉ l) :
    eraseFirst (l ++ [i]) i = l := by
  induction l with
  | nil => simp [eraseFirst]
  | cons x rest ih =>
    simp at h
    simp [eraseFirst, Ne.symm h.1, ih h.2]

end MapLemmas

section WfLemmas

variable {T : Type} [Identifiable T]

omit [Identifiable T] in
lemma wf_new : wf (Collection.new : Collection T) := by
  refine ⟨List.nodup_nil, ?_, ?_⟩ <;> simp [Collection.new, keysA_nil]

lemma wf_add (c : Collection T) (entity : T)
    (hfresh : Identifiable.get_id entity ∉ c.ids) (h : wf c) :
    wf (c.add entity) := by
  obtain ⟨hnd, hik, hki⟩ := h
  refine ⟨?_, ?_, ?_⟩
  · simpa [Collection.add, List.nodup_append] using ⟨hnd, hfresh⟩
  · intro i hi
    simp [Collection.add] at hi
    simp only [Collection.add, mem_keysA_insertA]
    rcases hi with hi | hi
    · exact Or.inr (hik i hi)
    · exact Or.inl hi
  · intro i hi
    simp only [Collection.add, mem_keysA_insertA] at hi
    simp [Collection.add]
    rcases hi with hi | hi
    · exact Or.inr hi
    · exact Or.inl (hki i hi)

lemma wf_update (c : Collection T) (entity : T)
    (hmem : Identifiable.get_id entity ∈ c.ids) (h : wf c) :
    wf (c.update entity) := by
  obtain ⟨hnd, hik, hki⟩ := h
  refine ⟨hnd, ?_, ?_⟩
  · intro i hi
    simp only [Collection.update, mem_keysA_insertA]
    exact Or.inr (hik i hi)
  · intro i hi
    simp only [Collection.update, mem_keysA_insertA] at hi
    rcases hi with hi | hi
    · simpa [Collection.update, hi] using hmem
    · exact hki i hi

omit [Identifiable T] in
lemma wf_remove (c : Collection T) (i : Int) (c' : Collection T)
    (hrm : c.remove i = some c') (h : wf c) : wf c' := by
  obtain ⟨hnd, hik, hki⟩ := h
  by_cases hmem : i ∈ c.ids
  · simp only [Collection.remove, if_pos hmem, Option.some.injEq] at hrm
    subst hrm
    refine ⟨nodup_eraseFirst c.ids i hnd, ?_, ?_⟩
    · intro j hj
      have hji : j ≠ i := by
        intro he
        subst he
        exact not_mem_eraseFirst_self c.ids j hnd hj
      rw [mem_keysA_eraseA]
      exact ⟨hik j (mem_of_mem_eraseFirst c.ids i j hj), hji⟩
    · intro j hj
      rw [mem_keysA_eraseA] at hj
      rw [mem_eraseFirst_of_ne c.ids i j hj.2]
      exact hki j hj.1
  · simp [Collection.remove, hmem] at hrm

lemma wf_applyOpStrict (c c' : Collection T) (op : Op T)
    (hstep : applyOpStrict c op = some c') (h : wf c) : wf c' := by
  cases op with
  | addE entity =>
    by_cases hmem : Identifiable.get_id entity ∈ c.ids
    · simp [applyOpStrict, hmem] at hstep
    · simp only [applyOpStrict, if_neg hmem, Option.some.injEq] at hstep
      subst hstep
      exact wf_add c entity hmem h
  | updateE entity =>
    by_cases hmem : Identifiable.get_id entity ∈ c.ids
    · simp only [applyOpStrict, if_pos hmem, Option.some.injEq] at hstep
      subst hstep
      exact wf_update c entity hmem h
    · simp [applyOpStrict, hmem] at hstep
  | removeE i => exact wf_remove c i c' hstep h

lemma wf_runOpsStrictFrom (ops : List (Op T)) (c c' : Collection T)
    (hrun : runOpsStrictFrom c ops = some c') (h : wf c) : wf c' := by
  induction ops generalizing c with
  | nil =>
    simp [runOpsStrictFrom] at hrun
    subst hrun
    exact h
  | cons op rest ih =>
    simp only [runOpsStrictFrom] at hrun
    cases hstep : applyOpStrict c op with
    | none => simp [hstep] at hrun
    | some c1 =>
      rw [hstep] at hrun
      exact ih c1 hrun (wf_applyOpStrict c c1 op hstep h)

end WfLemmas


section CollectionClaims

/-- C1 (counterexample): the order/map consistency invariant does not hold for
every succeeding sequence of add/update/remove calls. `update` on an absent id
succeeds and leaves the id in `byId` but not in `order`, and `add` on a present
id succeeds and duplicates the id in `order`. -/
theorem collection_invariant_cex :
    runOps [Op.updateE (Todo.new 0 "")] =
      some (⟨[], [(0, Todo.new 0 "")]⟩ : Collection Todo) ∧
    ¬ wf (⟨[], [(0, Todo.new 0 "")]⟩ : Collection Todo) ∧
    runOps [Op.addE (Todo.new 1 ""), Op.addE (Todo.new 1 "")] =
      some (⟨[1, 1], [(1, Todo.new 1 "")]⟩ : Collection Todo) ∧
    ¬ (⟨[1, 1], [(1, Todo.new 1 "")]⟩ : Collection Todo).ids.Nodup := by
  decide

/-- C1 (amended): for every sequence of add/update/remove operations from the
empty collection in which each add targets a fresh id, each update targets a
present id, and each remove succeeds, the resulting collection has no
duplicates in `order` and the ids of `order` coincide with the keys of
`byId`. -/
theorem collection_invariant_strict_ops {T : Type} [Identifiable T]
    (ops : List (Op T)) (c : Collection T)
    (h : runOpsStrict ops = some c) : wf c :=
  wf_runOpsStrictFrom ops Collection.new c h wf_new

/-- Witness for the amended C1 at a concrete three-operation sequence. -/
theorem collection_invariant_strict_ops_witness :
    wf (⟨[2], [(2, Todo.new 2 "")]⟩ : Collection Todo) :=
  collection_invariant_strict_ops
    [Op.addE (Todo.new 1 ""), Op.addE (Todo.new 2 ""), Op.removeE 1]
    ⟨[2], [(2, Todo.new 2 "")]⟩ (by decide)

/-- C4 (counterexample): updating an entity whose id is absent does not fail;
`Collection::update` has no presence check, so on the empty collection it
returns a collection binding the id in `byId` (while `order` stays empty)
instead of failing with `NotFoundError`. -/
theorem update_missing_cex :
    ((Collection.new : Collection Todo).update (Todo.new 0 "")).ids = [] ∧
    lookupA ((Collection.new : Collection Todo).update (Todo.new 0 "")).entities 0 =
      some (Todo.new 0 "") := by
  decide

/-- C4 (amended): `update` replaces the value bound to `entity.id` in `byId`
and leaves `order` unchanged; when the id is absent it does not fail but
inserts the binding into `byId` (an upsert on `byId` only), other bindings
unchanged in both cases. -/
theorem update_is_upsert_on_byId {T : Type} [Identifiable T]
    (c : Collection T) (entity : T) :
    (c.update entity).ids = c.ids ∧
    lookupA (c.update entity).entities (Identifiable.get_id entity) = some entity ∧
    (∀ j, j ≠ Identifiable.get_id entity →
      lookupA (c.update entity).entities j = lookupA c.entities j) :=
  ⟨rfl, lookupA_insertA_self c.entities (Identifiable.get_id entity) entity,
   fun j hj => lookupA_insertA_ne c.entities (Identifiable.get_id entity) j entity hj⟩

/-- Witness for the amended C4: updating id 1 leaves the binding of id 2 alone. -/
theorem update_is_upsert_on_byId_witness :
    lookupA ((⟨[1, 2], [(1, Todo.new 1 ""), (2, Todo.new 2 "")]⟩ : Collection Todo).update
        (Todo.new 1 "x")).entities 2 =
      lookupA (⟨[1, 2], [(1, Todo.new 1 ""), (2, Todo.new 2 "")]⟩ : Collection Todo).entities 2 :=
  (update_is_upsert_on_byId ⟨[1, 2], [(1, Todo.new 1 ""), (2, Todo.new 2 "")]⟩
    (Todo.new 1 "x")).2.2 2 (by decide)

/-- C5: `remove` on a present id succeeds, deleting the first occurrence of
the id from `order` and the id's binding from `byId` (other bindings
untouched); on an absent id it fails (the source panics at
`.expect("Entity should exist!")`, the spec calls this `NotFoundError`). -/
theorem remove_spec {T : Type} (c : Collection T) (i : Int) :
    (i ∈ c.ids →
      ∃ c', c.remove i = some c' ∧
        c'.ids = eraseFirst c.ids i ∧
        lookupA c'.entities i = none ∧
        (∀ j, j ≠ i → lookupA c'.entities j = lookupA c.entities j)) ∧
    (i ∉ c.ids → c.remove i = none) := by
  constructor
  · intro hmem
    refine ⟨⟨eraseFirst c.ids i, eraseA c.entities i⟩, ?_, rfl, ?_, ?_⟩
    · simp [Collection.remove, hmem]
    · exact lookupA_eraseA_self c.entities i
    · exact fun j hj => lookupA_eraseA_ne c.entities i j hj
  · intro hmem
    simp [Collection.remove, hmem]

/-- Witness for C5: a present id is removed, an absent id fails. -/
theorem remove_spec_witness :
    (∃ c', (⟨[1], [(1, Todo.new 1 "")]⟩ : Collection Todo).remove 1 = some c' ∧
        c'.ids = eraseFirst (⟨[1], [(1, Todo.new 1 "")]⟩ : Collection Todo).ids 1 ∧
        lookupA c'.entities 1 = none ∧
        (∀ j, j ≠ 1 → lookupA c'.entities j =
          lookupA (⟨[1], [(1, Todo.new 1 "")]⟩ : Collection Todo).entities j)) ∧
    (⟨[1], [(1, Todo.new 1 "")]⟩ : Collection Todo).remove 2 = none :=
  ⟨(remove_spec ⟨[1], [(1, Todo.new 1 "")]⟩ 1).1 (by decide),
   (remove_spec ⟨[1], [(1, Todo.new 1 "")]⟩ 2).2 (by decide)⟩

/-- C7: adding an entity whose id is nowhere in the collection and then
removing that id is the identity on the collection value. -/
theorem add_remove_roundtrip {T : Type} [Identifiable T]
    (c : Collection T) (entity : T)
    (h1 : Identifiable.get_id entity ∉ c.ids)
    (h2 : Identifiable.get_id entity ∉ keysA c.entities) :
    (c.add entity).remove (Identifiable.get_id entity) = some c := by
  obtain ⟨ids, ents⟩ := c
  rw [Collection.remove]
  rw [if_pos (by simp [Collection.add])]
  simp only [Collection.add]
  rw [eraseFirst_append_singleton ids (Identifiable.get_id entity) h1,
    eraseA_insertA_of_not_mem ents (Identifiable.get_id entity) entity h2]

/-- Witness for C7 at a concrete collection and entity. -/
theorem add_remove_roundtrip_witness :
    ((⟨[1], [(1, Todo.new 1 "")]⟩ : Collection Todo).add (Todo.new 2 "")).remove 2 =
      some ⟨[1], [(1, Todo.new 1 "")]⟩ :=
  add_remove_roundtrip ⟨[1], [(1, Todo.new 1 "")]⟩ (Todo.new 2 "")
    (by decide) (by decide)

/-- C9: `add` on an id that is already in `order` does not fail: it appends a
second occurrence of the id to `order` and overwrites the `byId` binding, so
the id occurs at least twice in the result (exactly twice when it occurred
once before). -/
theorem add_existing_id_duplicates_order {T : Type} [Identifiable T]
    (c : Collection T) (entity : T)
    (h : Identifiable.get_id entity ∈ c.ids) :
    (c.add entity).ids = c.ids ++ [Identifiable.get_id entity] ∧
    lookupA (c.add entity).entities (Identifiable.get_id entity) = some entity ∧
    (c.add entity).ids.count (Identifiable.get_id entity) =
      c.ids.count (Identifiable.get_id entity) + 1 ∧
    2 ≤ (c.add entity).ids.count (Identifiable.get_id entity) := by
  have h1 : 0 < c.ids.count (Identifiable.get_id entity) := by
    simpa using List.count_pos_iff.mpr h
  have h2 : (c.add entity).ids.count (Identifiable.get_id entity) =
      c.ids.count (Identifiable.get_id entity) + 1 := by
    simp [Collection.add]
  exact ⟨rfl, lookupA_insertA_self c.entities (Identifiable.get_id entity) entity,
    h2, by omega⟩

/-- Witness for C9: adding id 1 to a collection already holding id 1 yields
two occurrences of 1 in `order`. -/
theorem add_existing_id_duplicates_order_witness :
    2 ≤ ((⟨[1], [(1, Todo.new 1 "")]⟩ : Collection Todo).add (Todo.new 1 "x")).ids.count 1 :=
  (add_existing_id_duplicates_order ⟨[1], [(1, Todo.new 1 "")]⟩ (Todo.new 1 "x")
    (by decide)).2.2.2

/-- C10: `update` on an id absent from the collection does not fail: the
entity lands in `byId` and is retrievable there, while `order` is unchanged
and still does not mention the id. -/
theorem update_absent_id_invisible {T : Type} [Identifiable T]
    (c : Collection T) (entity : T)
    (h1 : Identifiable.get_id entity ∉ c.ids)
    (_h2 : lookupA c.entities (Identifiable.get_id entity) = none) :
    (c.update entity).ids = c.ids ∧
    lookupA (c.update entity).entities (Identifiable.get_id entity) = some entity ∧
    Identifiable.get_id entity ∉ (c.update entity).ids :=
  ⟨rfl, lookupA_insertA_self c.entities (Identifiable.get_id entity) entity, h1⟩

/-- Witness for C10: updating id 1 into the empty collection makes it
retrievable from `byId`. -/
theorem update_absent_id_invisible_witness :
    lookupA ((Collection.new : Collection Todo).update (Todo.new 1 "")).entities 1 =
      some (Todo.new 1 "") :=
  (update_absent_id_invisible Collection.new (Todo.new 1 "") (by decide) (by decide)).2.1

end CollectionClaims

section StoreClaims

lemma reducerFold_map_lift {S A : Type} (fs : List (S → A → S)) (s : S) (a : A) :
    reducerFold (fs.map (fun f => fun st act => some (f st act))) s a =
      some (fs.foldl (fun st f => f st a) s) := by
  induction fs generalizing s with
  | nil => rfl
  | cons f rest ih => simp [reducerFold, List.foldl_cons, ih]

/-- C2: if any reducer in the chain fails while processing a dispatch, the
failure propagates out of `dispatch` (no observer-value list is produced, so
no observer is invoked), and the store — in particular the state seen through
`get_state` — is exactly what it was before the call. -/
theorem dispatch_failure_is_atomic {S A Out : Type} (store : Store S A Out) (a : A)
    (h : reducerFold store.reducers store.state a = none) :
    (store.dispatch a).1 = none ∧
    (store.dispatch a).2 = store ∧
    ((store.dispatch a).2).get_state = store.get_state := by
  refine ⟨?_, ?_, ?_⟩ <;> simp [Store.dispatch, h, Store.get_state]

/-- Concrete store whose second reducer fails after the first one succeeded. -/
def failStore : Store Nat Nat Nat :=
  ⟨7, [fun s a => some (s + a), fun _ _ => none],
   [⟨fun s => s == 0, fun b => cond b 1 0⟩]⟩

/-- Witness for C2: a dispatch whose second reducer fails mid-fold leaves the
store untouched and yields no observer invocations. -/
theorem dispatch_failure_is_atomic_witness :
    (failStore.dispatch 5).1 = none ∧
    (failStore.dispatch 5).2 = failStore ∧
    ((failStore.dispatch 5).2).get_state = failStore.get_state :=
  dispatch_failure_is_atomic failStore 5 rfl

/-- C3: when the registered reducers are (lifted) pure functions, `dispatch`
computes the new stored state as the left fold of the action through them in
registration order, each reducer consuming the previous one's output; and
`register_reducer` appends to the chain, so list order is registration
order. -/
theorem dispatch_folds_reducers_in_order {S A Out : Type} (store : Store S A Out)
    (fs : List (S → A → S)) (a : A)
    (h : store.reducers = fs.map (fun f => fun st act => some (f st act))) :
    ((store.dispatch a).2).state = fs.foldl (fun st f => f st a) store.state ∧
    (store.dispatch a).1.isSome ∧
    (∀ r, (store.register_reducer r).reducers = store.reducers ++ [r]) := by
  have hf := reducerFold_map_lift fs store.state a
  rw [← h] at hf
  refine ⟨?_, ?_, fun r => rfl⟩ <;> simp [Store.dispatch, hf]

/-- Two pure reducers with observably different composition orders. -/
def foldFns : List (Nat → Nat → Nat) := [fun s a => s + a, fun s _ => s * 2]

/-- Concrete store holding the lifted `foldFns` chain. -/
def foldStore : Store Nat Nat Nat :=
  ⟨1, foldFns.map (fun f => fun st act => some (f st act)), []⟩

/-- Witness for C3: dispatching 3 from state 1 stores ((1+3)*2), the left
fold in registration order. -/
theorem dispatch_folds_reducers_in_order_witness :
    ((foldStore.dispatch 3).2).state = foldFns.foldl (fun st f => f st 3) 1 :=
  (dispatch_folds_reducers_in_order foldStore foldFns 3 rfl).1

/-- C6: after a successful dispatch, every registered selector/observer pair
is invoked exactly once, in registration order, the observer receiving its
selector applied to the new state; `observe` merely appends a pair (firing
nothing and leaving the state alone), so the pair sees no past dispatches. -/
theorem dispatch_notifies_each_observer_once {S A Out : Type}
    (store : Store S A Out) (a : A) (t : S)
    (h : reducerFold store.reducers store.state a = some t) :
    (store.dispatch a).1 =
      some (store.observers.map (fun os => os.observer (os.selector t))) ∧
    ((store.dispatch a).2).state = t ∧
    (∀ sel obs, (store.observe sel obs).observers = store.observers ++ [⟨sel, obs⟩] ∧
      (store.observe sel obs).state = store.state) := by
  refine ⟨?_, ?_, fun sel obs => ⟨rfl, rfl⟩⟩ <;> simp [Store.dispatch, h]

/-- Concrete store with one incrementing reducer and two observers. -/
def obsStore : Store Nat Nat Nat :=
  ⟨0, [fun s a => some (s + a)],
   [⟨fun s => s == 3, fun b => cond b 1 0⟩, ⟨fun s => s == 4, fun b => cond b 1 0⟩]⟩

/-- Witness for C6: dispatching 3 produces exactly one output per registered
observer, in order, computed from the new state 3. -/
theorem dispatch_notifies_each_observer_once_witness :
    (obsStore.dispatch 3).1 =
      some (obsStore.observers.map (fun os => os.observer (os.selector 3))) :=
  (dispatch_notifies_each_observer_once obsStore 3 3 rfl).1

/-- The store of the example scenario: initial empty `RootState` with
`todo_reducer` registered. -/
def scenarioStore0 : Store RootState TodoAction Bool :=
  Store.register_reducer (Store.new RootState.new) (fun s a => todo_reducer s a)

/-- Scenario step 1: dispatch `AddEntity({id: 1, done: false})`. -/
def scenarioD1 : Option (List Bool) × Store RootState TodoAction Bool :=
  scenarioStore0.dispatch (TodoAction.Entity (EntityAction.AddEntity (Todo.new 1 "a")))

/-- Scenario step 2: dispatch `AddEntity({id: 2, done: false})`. -/
def scenarioD2 : Option (List Bool) × Store RootState TodoAction Bool :=
  scenarioD1.2.dispatch (TodoAction.Entity (EntityAction.AddEntity (Todo.new 2 "b")))

/-- Scenario step 3: dispatch `RemoveEntity(1)`. -/
def scenarioD3 : Option (List Bool) × Store RootState TodoAction Bool :=
  scenarioD2.2.dispatch (TodoAction.Entity (EntityAction.RemoveEntity 1))

/-- Scenario step 4: dispatch `UpdateEntity({id: 2, done: true})`
(`ReplaceEntity` in the source's action vocabulary). -/
def scenarioD4 : Option (List Bool) × Store RootState TodoAction Bool :=
  scenarioD3.2.dispatch (TodoAction.Entity (EntityAction.ReplaceEntity ⟨2, "b", true⟩))

/-- C8: the example scenario. After each successive dispatch the collection
holds exactly id 1; has order `[1, 2]`; has order `[2]` with id 1 no longer
retrievable; and finally id 2's `done` flag reads `true`. -/
theorem example_scenario_run :
    scenarioD1.1.isSome ∧
    (scenarioD1.2.get_state).todos.ids = [1] ∧
    (lookupA (scenarioD1.2.get_state).todos.entities 1).isSome ∧
    scenarioD2.1.isSome ∧
    (scenarioD2.2.get_state).todos.ids = [1, 2] ∧
    scenarioD3.1.isSome ∧
    (scenarioD3.2.get_state).todos.ids = [2] ∧
    lookupA (scenarioD3.2.get_state).todos.entities 1 = none ∧
    scenarioD4.1.isSome ∧
    (lookupA (scenarioD4.2.get_state).todos.entities 2).map Todo.done = some true := by
  decide

end StoreClaims
